import Mathlib

/-!
Verification of the IMD data-processing tools (`ETLTools/IMDProcessingClass.py`,
`ETLTools/LookUpProcessingClass.py`, `run.py`).

A pandas `DataFrame` is embedded as a `Sheet`: an ordered list of column
headers plus an ordered list of rows, each row a list of cells.  A cell is
`Option String`: `none` stands for a null (`NaN`) entry.  Workbook
collections (Python dicts from filename to list of sheets) are association
lists; Python dict keys are unique, which appears as a `Nodup` hypothesis
where it matters.  Fallible Python operations (IndexError from `filename[6]`,
`df.columns[1]`, ValueError from unpacking or from `pd.DataFrame` on
unequal-length arrays, KeyError from dict/column lookup) are embedded with
`Except String`.
-/

abbrev Cell := Option String

instance [DecidableEq ε] [DecidableEq α] : DecidableEq (Except ε α) := fun a b =>
  match a, b with
  | .error e, .error f =>
      if h : e = f then .isTrue (by rw [h]) else .isFalse (by intro hc; cases hc; exact h rfl)
  | .ok x, .ok y =>
      if h : x = y then .isTrue (by rw [h]) else .isFalse (by intro hc; cases hc; exact h rfl)
  | .error _, .ok _ => .isFalse (by intro hc; cases hc)
  | .ok _, .error _ => .isFalse (by intro hc; cases hc)

structure Sheet where
  header : List String
  rows : List (List Cell)
deriving DecidableEq

/-- Python string indexing `s[i]` (as a total lookup; the caller models the
IndexError when the result is `none`). -/
def pyCharAt (s : String) (i : Nat) : Option Char :=
  s.data.get? i

/-- Effectful map over a list in the `Except` monad: stops at the first
error, exactly as a Python `for` loop does. -/
def mapE (f : α → Except String β) : List α → Except String (List β)
  | [] => .ok []
  | a :: l => do
      let b ← f a
      let bs ← mapE f l
      pure (b :: bs)

/-- `df.drop(labels, axis=1)`: pandas drops every column whose label is in
`labels`, from the header and from each row (cells are matched to columns
positionally). -/
def dropLabels (labels : List String) (s : Sheet) : Sheet :=
  { header := s.header.filter (fun name => decide (name ∉ labels)),
    rows := s.rows.map (fun r =>
      ((s.header.zip r).filter (fun p => decide (p.1 ∉ labels))).map Prod.snd) }

/-- The per-sheet body of `ProcessIMDData.remove_columns` (lines 117-125):
a filename with `filename[6] != '_'` is summary-resolution and the sheet
drops the label `df.columns[1]` (IndexError when the sheet has fewer than
two columns); a filename with `filename[6] == '_'` is LSOA-resolution and
the sheet drops the labels `df.columns[1:4]` (a slice, hence total). -/
def stripSheet (filename : String) (s : Sheet) : Except String Sheet :=
  if pyCharAt filename 6 ≠ some '_' then
    if s.header.length < 2 then .error "IndexError: single positional indexer is out-of-bounds"
    else .ok (dropLabels [s.header.getD 1 ""] s)
  else
    .ok (dropLabels ((s.header.drop 1).take 3) s)

/-- `ProcessIMDData.remove_columns` (lines 82-129).  The two classification
comprehensions (lines 99-109) index `filename[6]` for every key first, so a
filename shorter than 7 characters raises IndexError before any sheet is
touched; afterwards each entry keeps its key and every sheet is stripped
according to the file's classification. -/
def remove_columns (d : List (String × List Sheet)) :
    Except String (List (String × List Sheet)) :=
  if d.any (fun kv => kv.1.length < 7) then
    .error "IndexError: string index out of range"
  else
    mapE (fun kv => do
      let ss ← mapE (stripSheet kv.1) kv.2
      pure (kv.1, ss)) d

/-- `pd.melt(sheet, id_vars=sheet.columns[0:2], value_vars=sheet.columns[1:],
var_name='attribute', value_name='value')` (lines 154-160).  pandas slices
the frame to the deduplicated union of `id_vars` and `value_vars` (here: the
whole frame in original order) and then pops every `id_vars` column out of
the frame before raveling the values, so the column at position 1 — listed in
both `id_vars` and `value_vars` — is kept as an identity column only and is
never melted.  The melted columns are those from position 2 onward; output
columns are the id columns followed by `attribute` and `value`, and melt
iterates column-major: for each melted column in order, one output row per
original row, carrying the id cells, the melted column's header as the
attribute and its cell as the value.  A two-column sheet therefore melts to
an empty frame. -/
def melt (s : Sheet) : Sheet :=
  { header := s.header.take 2 ++ ["attribute", "value"],
    rows := (List.range' 2 (s.header.length - 2)).flatMap (fun j =>
      s.rows.map (fun r =>
        r.take 2 ++ [some (s.header.getD j ""), r.getD j none])) }

/-- `ProcessIMDData.convert_to_eav_format` (lines 132-166): every sheet of
every entry is melted, keys are kept. -/
def convert_to_eav_format (d : List (String × List Sheet)) :
    List (String × List Sheet) :=
  d.map (fun kv => (kv.1, kv.2.map melt))

/-- The in-memory kernel of the per-file body of `ProcessIMDData.read_imd_data`
(lines 62-66): `df.pop('Notes', None)` / `df.pop('Terms & Conditions', None)`
remove the entry with that key from the ordered sheet dict when present
(dict keys are unique, so removing the first occurrence is removal of the
occurrence); absence does nothing.  The guarding `if ... in df.keys()` only
re-checks presence and cannot fail. -/
def pyPop (k : String) : List (String × Sheet) → List (String × Sheet)
  | [] => []
  | kv :: l => if kv.1 = k then l else kv :: pyPop k l

/-- Lines 62-75 of `read_imd_data`: pop the two non-data sheets, then collect
the remaining sheet values in order into the file's sheet list. -/
def load_sheets (wb : List (String × Sheet)) : List Sheet :=
  (pyPop "Terms & Conditions" (pyPop "Notes" wb)).map Prod.snd

/-- Accumulator pass of `uniqueFirst`: keep each element not seen before. -/
def uniqueFirstAux (seen : List Cell) : List Cell → List Cell
  | [] => []
  | a :: l => if a ∈ seen then uniqueFirstAux seen l
              else a :: uniqueFirstAux (a :: seen) l

/-- `pandas.Series.unique` / the dedup used in `create_bridge_tables`
(lines 179-180): uniques in first-occurrence order. -/
def uniqueFirst (l : List Cell) : List Cell :=
  uniqueFirstAux [] l

/-- The column of a sheet at position `i`. -/
def getCol (t : Sheet) (i : Nat) : List Cell :=
  t.rows.map (fun r => r.getD i none)

/-- `ProcessLookupTable.bridge_table_index_dictionary` values, in dict order
(lines 43-48). -/
def bridgePairs : List (Nat × Nat) := [(2, 3), (6, 7), (10, 11), (14, 16)]

/-- One iteration pair of the two loops of `create_bridge_tables`
(lines 168-182): select the two columns at the configured positions
(IndexError when the master table is too narrow), dedup each column
independently with `unique()`, and build `pd.DataFrame({'code': ..,
'name': ..})` — which raises ValueError unless the two deduplicated arrays
have the same length. -/
def mkBridge (t : Sheet) (ij : Nat × Nat) : Except String Sheet :=
  if ij.1 < t.header.length ∧ ij.2 < t.header.length then
    let uc := uniqueFirst (getCol t ij.1)
    let un := uniqueFirst (getCol t ij.2)
    if uc.length = un.length then
      .ok { header := ["code", "name"], rows := (uc.zip un).map (fun p => [p.1, p.2]) }
    else .error "ValueError: All arrays must be of the same length"
  else .error "IndexError: positional indexers are out-of-bounds"

/-- `ProcessLookupTable.create_bridge_tables` (lines 148-184).  The source
first slices all four bridges and then dedups all four; fusing the two loops
per bridge is observationally equal except for which error message surfaces
when several bridges are bad, which no claim touches. -/
def create_bridge_tables (t : Sheet) : Except String (List Sheet) :=
  mapE (mkBridge t) bridgePairs

/-- Python `lookup_dictionary[key]`: first (and in a dict, only) entry with
that key, KeyError when absent. -/
def getReq (d : List (String × Sheet)) (k : String) : Except String Sheet :=
  match d.find? (fun kv => kv.1 == k) with
  | some kv => .ok kv.2
  | none => .error ("KeyError: " ++ k)

/-- `pd.merge(left, right, left_on, right_on, how='left')`.  The key columns
are located by name (KeyError when absent; first occurrence when the joined
header repeats a name — the only repeated lookups in this program resolve in
the left-most block, so suffix mangling of duplicate non-key labels is not
modelled).  Each left row is paired with every right row whose key cell
equals its key cell, or padded with one all-null right block when none
matches; `mergeRow` is that per-left-row pairing. -/
def mergeRow (r : Sheet) (li ri : Nat) (lr : List Cell) : List (List Cell) :=
  if (r.rows.filter (fun rr => decide (rr.getD ri none = lr.getD li none))).isEmpty then
    [lr ++ List.replicate r.header.length none]
  else
    (r.rows.filter (fun rr => decide (rr.getD ri none = lr.getD li none))).map
      (fun rr => lr ++ rr)

def leftMerge (l r : Sheet) (lk rk : String) : Except String Sheet :=
  match l.header.findIdx? (fun h => h == lk), r.header.findIdx? (fun h => h == rk) with
  | some li, some ri =>
      .ok { header := l.header ++ r.header, rows := l.rows.flatMap (mergeRow r li ri) }
  | _, _ => .error "KeyError: join column not found"

/-- `ProcessLookupTable.create_master` (lines 100-146): fetch and left-join
District, DistrictUT, LEP, CCG in the source's evaluation order, always on
left key `LSOA code (2011)` and right key `LSOA11CD`. -/
def create_master (d : List (String × Sheet)) : Except String Sheet := do
  let dist ← getReq d "LSOA_District_lookup.csv"
  let ut ← getReq d "LSOA_DistrictUT_lookup.csv"
  let j1 ← leftMerge dist ut "LSOA code (2011)" "LSOA11CD"
  let lep ← getReq d "LSOA_LEP_lookup.csv"
  let j2 ← leftMerge j1 lep "LSOA code (2011)" "LSOA11CD"
  let ccg ← getReq d "LSOA_CCG_lookup.csv"
  leftMerge j2 ccg "LSOA code (2011)" "LSOA11CD"

/-- Rendering of one cell by `to_csv`: nulls become empty fields. -/
def renderCell : Cell → String
  | none => ""
  | some s => s

def renderRow (r : List Cell) : String :=
  String.intercalate "," (r.map renderCell)

/-- `DataFrame.to_csv(header=..., index=...)` as the list of emitted lines:
an optional header line, then one line per row, each prefixed with its
positional (RangeIndex) label when `index` is true. -/
def to_csv (df : Sheet) (header index : Bool) : List String :=
  (if header then
    [String.intercalate "," ((if index then [""] else []) ++ df.header)]
   else [])
  ++ df.rows.enum.map (fun p =>
      if index then toString p.1 ++ "," ++ renderRow p.2 else renderRow p.2)

/-- Line 188, `sheet.to_csv(f'{self.write_file_path}\\{i}_{name}',
header=False)`: the target path and emitted lines of one write call.
`header=False` is passed; `index` is left at the pandas default `True`. -/
def imd_to_csv_call (dir name : String) (i : Nat) (df : Sheet) : String × List String :=
  (dir ++ "\\" ++ toString i ++ "_" ++ name, to_csv df false true)

/-- `ProcessIMDData.write_data` (lines 186-188) on a collection whose values
are sheet lists (the shape the earlier stages produce).  The header
`for name, sheet_list in spreadsheet_dictionary.values()` unpacks each value:
a value that is not a two-element sequence raises ValueError; a two-element
value binds `name` to the first sheet and `sheet_list` to the second, and
`enumerate(sheet_list)` then iterates that DataFrame's column labels, so the
first label's `.to_csv` raises AttributeError (a DataFrame with no columns
yields an empty loop instead). -/
def write_data : List (String × List Sheet) → Except String Unit
  | [] => .ok ()
  | (_, v) :: rest =>
    match v with
    | [_, b] =>
        if b.header.isEmpty then write_data rest
        else .error "AttributeError: str object has no attribute to_csv"
    | _ => .error "ValueError: cannot unpack values"

/-- Effectful fold in the `Except` monad (a Python `for` loop threading
mutable state, stopping at the first raised error). -/
def foldE (f : σ → α → Except String σ) : σ → List α → Except String σ
  | s, [] => .ok s
  | s, a :: l =>
    match f s a with
    | .ok s' => foldE f s' l
    | .error e => .error e

/-- One `df.drop(..., inplace=True)` call of `remove_columns` under the heap
model: the store holds every live DataFrame, a sheet reference is an index
into it, and the referenced sheet is replaced in place by its stripped
version. -/
def applyStrip (filename : String) (store : List Sheet) (id : Nat) :
    Except String (List Sheet) :=
  match store.get? id with
  | some s => do
      let s' ← stripSheet filename s
      pure (store.set id s')
  | none => .error "invalid sheet reference"

/-- `remove_columns` under the heap model: the workbook collection maps each
filename to the list of references of its sheets, mutation happens in the
shared store, and the returned collection carries the very same references
(lines 119-120 and 124-125 append the mutated `df` itself). -/
def remove_columns_store (d : List (String × List Nat)) (store : List Sheet) :
    Except String (List (String × List Nat) × List Sheet) :=
  if d.any (fun kv => kv.1.length < 7) then
    .error "IndexError: string index out of range"
  else do
    let store' ← foldE (fun st kv =>
      foldE (fun st2 id => applyStrip kv.1 st2 id) st kv.2) store d
    pure (d, store')

/-- All (filename, sheet-reference) pairs of a collection, in traversal
order. -/
def sheetRefs (d : List (String × List Nat)) : List (String × Nat) :=
  d.flatMap (fun kv => kv.2.map (fun id => (kv.1, id)))

/-! ## Concrete sample data -/

/-- A 4-column one-row sheet used as concrete input. -/
def sampleWideSheet : Sheet :=
  ⟨["a", "b", "c", "d"], [[some "1", some "2", some "3", some "4"]]⟩

/-- A collection with one summary-resolution file (`'Y'` at index 6) and one
LSOA-resolution file (`'_'` at index 6). -/
def c1Workbook : List (String × List Sheet) :=
  [("SUMMARY.xlsx", [sampleWideSheet]), ("LSOA09_IMD.xlsx", [sampleWideSheet])]

def c3Header : List String := ["LSOA code", "LSOA name", "Score"]

/-- The 2-sheet workbook of the end-to-end scenario, keyed by
`E01000001_IMD.xlsx`. -/
def c3Workbook : List (String × List Sheet) :=
  [("E01000001_IMD.xlsx",
    [⟨c3Header, [[some "E01000001", some "Name One", some "5"]]⟩,
     ⟨c3Header, [[some "E01000002", some "Name Two", some "7"]]⟩])]

/-- A lookup collection in which the DistrictUT table carries the key `A`
twice, so the first left-join duplicates the single District row. -/
def c5Lookups : List (String × Sheet) :=
  [("LSOA_District_lookup.csv", ⟨["LSOA code (2011)"], [[some "A"]]⟩),
   ("LSOA_DistrictUT_lookup.csv", ⟨["LSOA11CD"], [[some "A"], [some "A"]]⟩),
   ("LSOA_LEP_lookup.csv", ⟨["LSOA11CD"], []⟩),
   ("LSOA_CCG_lookup.csv", ⟨["LSOA11CD"], []⟩)]

/-- A well-formed lookup collection: unique right-side join keys, key `A`
matched by the DistrictUT table, key `B` matched nowhere. -/
def c5GoodLookups : List (String × Sheet) :=
  [("LSOA_District_lookup.csv",
    ⟨["LSOA code (2011)", "dname"], [[some "A", some "DA"], [some "B", some "DB"]]⟩),
   ("LSOA_DistrictUT_lookup.csv", ⟨["LSOA11CD", "utname"], [[some "A", some "UA"]]⟩),
   ("LSOA_LEP_lookup.csv", ⟨["LSOA11CD", "lname"], []⟩),
   ("LSOA_CCG_lookup.csv", ⟨["LSOA11CD", "cname"], []⟩)]

/-- A 17-column one-row master table: wide enough for every configured bridge
index pair, with every column's dedup a singleton. -/
def c4Master : Sheet :=
  ⟨["h0", "h1", "h2", "h3", "h4", "h5", "h6", "h7", "h8", "h9", "h10", "h11",
    "h12", "h13", "h14", "h15", "h16"],
   [[some "v0", some "v1", some "v2", some "v3", some "v4", some "v5", some "v6",
     some "v7", some "v8", some "v9", some "v10", some "v11", some "v12",
     some "v13", some "v14", some "v15", some "v16"]]⟩

/-- A one-file collection referencing the two sheets of the store below. -/
def c10Refs : List (String × List Nat) := [("E01000001_IMD.xlsx", [0, 1])]

def c10Store : List Sheet :=
  [⟨["LSOA code", "LSOA name", "Score"], [[some "a", some "b", some "c"]]⟩,
   ⟨["LSOA code", "LSOA name", "Score"], []⟩]

/-- `c10Store` after both referenced sheets are stripped in place. -/
def c10StoreStripped : List Sheet :=
  [⟨["LSOA code", "Score"], [[some "a", some "c"]]⟩, ⟨["LSOA code", "Score"], []⟩]

/-! ## Helper lemmas -/

theorem mapE_congr_ok {f : α → Except String β} {g : α → β} :
    ∀ {l : List α}, (∀ a ∈ l, f a = .ok (g a)) → mapE f l = .ok (l.map g)
  | [], _ => rfl
  | a :: l, h => by
      have ha := h a (List.mem_cons_self a l)
      have hl := mapE_congr_ok (fun x hx => h x (List.mem_cons_of_mem a hx))
      simp only [mapE, List.map_cons]
      rw [ha, hl]
      rfl

theorem mapE_ok_length {f : α → Except String β} :
    ∀ {l : List α} {bs : List β}, mapE f l = .ok bs → bs.length = l.length := by
  intro l
  induction l with
  | nil => intro bs h; cases h; rfl
  | cons a l ih =>
      intro bs h
      simp only [mapE] at h
      cases hfa : f a with
      | error e => rw [hfa] at h; cases h
      | ok b =>
          rw [hfa] at h
          cases hml : mapE f l with
          | error e => rw [hml] at h; cases h
          | ok bs' =>
              rw [hml] at h
              cases h
              simp [ih hml]

theorem mapE_ok_get {f : α → Except String β} :
    ∀ {l : List α} {bs : List β}, mapE f l = .ok bs →
      ∀ i a b, l.get? i = some a → bs.get? i = some b → f a = .ok b := by
  intro l
  induction l with
  | nil => intro bs h i a b ha; simp at ha
  | cons x l ih =>
      intro bs h i a b ha hb
      simp only [mapE] at h
      cases hfa : f x with
      | error e => rw [hfa] at h; cases h
      | ok y =>
          rw [hfa] at h
          cases hml : mapE f l with
          | error e => rw [hml] at h; cases h
          | ok bs' =>
              rw [hml] at h
              cases h
              cases i with
              | zero =>
                  simp only [List.get?] at ha hb
                  cases ha; cases hb; exact hfa
              | succ i => exact ih hml i a b ha hb

/-! ## C9 -/

/-- C9: a workbook collection containing a filename shorter than 7 characters
makes the column stripper's classification check fail with the unguarded
IndexError, aborting the run. -/
theorem remove_columns_short_filename_error (d : List (String × List Sheet))
    (h : ∃ kv ∈ d, kv.1.length < 7) :
    remove_columns d = .error "IndexError: string index out of range" := by
  unfold remove_columns
  rw [if_pos]
  rw [List.any_eq_true]
  obtain ⟨kv, hkv, hlen⟩ := h
  exact ⟨kv, hkv, by simpa using hlen⟩

theorem remove_columns_short_filename_error_witness :
    (∃ kv ∈ [("a.xlsx", ([] : List Sheet))], kv.1.length < 7) ∧
    remove_columns [("a.xlsx", [])] = .error "IndexError: string index out of range" :=
  ⟨⟨("a.xlsx", []), by decide⟩,
   remove_columns_short_filename_error _ ⟨("a.xlsx", []), by decide⟩⟩

/-! ## C7 -/

/-- C7: the IMD writer unpacks each dictionary value as a `(name, sheet_list)`
pair, so on any collection in which some value is not a two-element sequence
(in particular the plain sheet lists the earlier stages produce) it raises
instead of consuming the filename-to-sheet-list mapping. -/
theorem write_data_unpack_failure (d : List (String × List Sheet))
    (h : ∃ kv ∈ d, kv.2.length ≠ 2) :
    ∃ e, write_data d = .error e := by
  induction d with
  | nil => simp at h
  | cons kv rest ih =>
      obtain ⟨kv', hkv', hlen⟩ := h
      obtain ⟨k, v⟩ := kv
      rcases List.mem_cons.mp hkv' with h1 | h2
      · subst h1
        match v, hlen with
        | [], _ => exact ⟨_, rfl⟩
        | [a], _ => exact ⟨_, rfl⟩
        | [a, b], hlen => simp at hlen
        | a :: b :: c :: t, _ => exact ⟨_, rfl⟩
      · match v with
        | [] => exact ⟨_, rfl⟩
        | [a] => exact ⟨_, rfl⟩
        | [a, b] =>
            obtain ⟨e, he⟩ := ih ⟨kv', h2, hlen⟩
            by_cases hb : b.header.isEmpty
            · exact ⟨e, by simp [write_data, hb, he]⟩
            · exact ⟨"AttributeError: str object has no attribute to_csv",
                by simp [write_data, hb]⟩
        | a :: b :: c :: t => exact ⟨_, rfl⟩

theorem write_data_unpack_failure_witness :
    (∃ kv ∈ [("f.xlsx", [(⟨["c"], []⟩ : Sheet)])], kv.2.length ≠ 2) ∧
    ∃ e, write_data [("f.xlsx", [⟨["c"], []⟩])] = .error e :=
  ⟨⟨("f.xlsx", [⟨["c"], []⟩]), by decide⟩,
   write_data_unpack_failure _ ⟨("f.xlsx", [⟨["c"], []⟩]), by decide⟩⟩

/-! ## C8 -/

theorem pyPop_eq_filter (k : String) :
    ∀ (wb : List (String × Sheet)), (wb.map Prod.fst).Nodup →
      pyPop k wb = wb.filter (fun kv => decide (kv.1 ≠ k))
  | [], _ => rfl
  | kv :: l, hnd => by
      have hnd' := List.nodup_cons.mp (show (kv.1 :: l.map Prod.fst).Nodup from by
        rw [List.map_cons] at hnd; exact hnd)
      by_cases hk : kv.1 = k
      · rw [show pyPop k (kv :: l) = l from by simp [pyPop, hk],
          List.filter_cons, if_neg (by simp [hk])]
        symm
        rw [List.filter_eq_self]
        intro a ha
        simp only [decide_eq_true_eq]
        intro hak
        exact hnd'.1 (by rw [hk, ← hak]; exact List.mem_map_of_mem Prod.fst ha)
      · rw [show pyPop k (kv :: l) = kv :: pyPop k l from by simp [pyPop, hk],
          List.filter_cons, if_pos (by simpa using hk), pyPop_eq_filter k l hnd'.2]

theorem pyPop_of_not_mem (k : String) :
    ∀ (wb : List (String × Sheet)), k ∉ wb.map Prod.fst → pyPop k wb = wb
  | [], _ => rfl
  | kv :: l, h => by
      simp only [List.map_cons, List.mem_cons] at h
      push_neg at h
      simp only [pyPop, if_neg (Ne.symm h.1)]
      rw [pyPop_of_not_mem k l h.2]

/-- C8: loading drops the sheets named `Notes` and `Terms & Conditions` when
present and keeps every other sheet in order, and a workbook containing
neither is loaded unchanged (absence is not an error). -/
theorem read_imd_excludes_nondata_sheets (wb : List (String × Sheet))
    (hnd : (wb.map Prod.fst).Nodup) :
    pyPop "Terms & Conditions" (pyPop "Notes" wb)
      = wb.filter (fun kv =>
          decide (kv.1 ≠ "Terms & Conditions") && decide (kv.1 ≠ "Notes")) ∧
    (∀ kv ∈ pyPop "Terms & Conditions" (pyPop "Notes" wb),
      kv.1 ≠ "Notes" ∧ kv.1 ≠ "Terms & Conditions") ∧
    ("Notes" ∉ wb.map Prod.fst → "Terms & Conditions" ∉ wb.map Prod.fst →
      load_sheets wb = wb.map Prod.snd) := by
  have hnd2 : ((wb.filter (fun kv => decide (kv.1 ≠ "Notes"))).map Prod.fst).Nodup :=
    hnd.sublist ((List.filter_sublist wb).map Prod.fst)
  have heq : pyPop "Terms & Conditions" (pyPop "Notes" wb)
      = wb.filter (fun kv =>
          decide (kv.1 ≠ "Terms & Conditions") && decide (kv.1 ≠ "Notes")) := by
    rw [pyPop_eq_filter "Notes" wb hnd, pyPop_eq_filter "Terms & Conditions" _ hnd2,
      List.filter_filter]
  refine ⟨heq, ?_, ?_⟩
  · intro kv hkv
    rw [heq, List.mem_filter] at hkv
    have := hkv.2
    simp only [Bool.and_eq_true, decide_eq_true_eq] at this
    exact ⟨this.2, this.1⟩
  · intro h1 h2
    unfold load_sheets
    rw [pyPop_of_not_mem "Notes" wb h1, pyPop_of_not_mem "Terms & Conditions" wb h2]

theorem read_imd_excludes_nondata_sheets_witness :
    (([("Notes", (⟨["n"], []⟩ : Sheet)), ("IMD", ⟨["c"], []⟩),
       ("Terms & Conditions", ⟨["t"], []⟩)].map Prod.fst).Nodup) ∧
    (∀ kv ∈ pyPop "Terms & Conditions" (pyPop "Notes"
        [("Notes", (⟨["n"], []⟩ : Sheet)), ("IMD", ⟨["c"], []⟩),
         ("Terms & Conditions", ⟨["t"], []⟩)]),
      kv.1 ≠ "Notes" ∧ kv.1 ≠ "Terms & Conditions") :=
  ⟨by decide,
   (read_imd_excludes_nondata_sheets
     [("Notes", ⟨["n"], []⟩), ("IMD", ⟨["c"], []⟩), ("Terms & Conditions", ⟨["t"], []⟩)]
     (by decide)).2.1⟩

/-! ## C6 -/

/-- C6 counterexample: at a concrete sheet the write call of line 188 emits
`"0,v"`, not the index-free rendering `["v"]` of the sheet's rows — the index
column is written, because `to_csv` is called with `header=False` only and
the pandas default `index=True` stands. -/
theorem imd_writer_index_counterexample :
    (imd_to_csv_call "out" "f.xlsx" 0 ⟨["c"], [[some "v"]]⟩).2 = ["0,v"] ∧
    ¬ (imd_to_csv_call "out" "f.xlsx" 0 ⟨["c"], [[some "v"]]⟩).2
        = (Sheet.rows ⟨["c"], [[some "v"]]⟩).map renderRow := by
  constructor <;> decide

/-- C6 amended: every write call of the IMD writer targets the path
`{write_file_path}\{sheet_index}_{name}` and emits no header line, but it
includes the index column: one line per row, each prefixed with the row's
positional index. -/
theorem imd_writer_output_amended (dir name : String) (i : Nat) (df : Sheet) :
    (imd_to_csv_call dir name i df).1 = dir ++ "\\" ++ toString i ++ "_" ++ name ∧
    (imd_to_csv_call dir name i df).2.length = df.rows.length ∧
    ∀ j r, df.rows.get? j = some r →
      (imd_to_csv_call dir name i df).2.get? j
        = some (toString j ++ "," ++ renderRow r) := by
  refine ⟨rfl, ?_, ?_⟩
  · simp [imd_to_csv_call, to_csv, List.enum_length]
  · intro j r hj
    simp [imd_to_csv_call, to_csv, List.get?_eq_getElem?, List.getElem?_map,
      List.getElem?_enum]
    rw [List.get?_eq_getElem?] at hj
    rw [hj]
    exact ⟨r, rfl, rfl⟩

theorem imd_writer_output_amended_witness :
    ((⟨["c"], [[some "v"], [none]]⟩ : Sheet).rows.get? 1 = some [none]) ∧
    (imd_to_csv_call "out" "f.xlsx" 0 ⟨["c"], [[some "v"], [none]]⟩).2.get? 1
      = some "1," :=
  ⟨by decide,
   ((imd_writer_output_amended "out" "f.xlsx" 0 ⟨["c"], [[some "v"], [none]]⟩).2.2
      1 [none] (by decide)).trans (by decide)⟩

/-! ## C1 -/

theorem dropLabels_pair (a b : String) (t : List String) (rows : List (List Cell))
    (hab : a ≠ b) (hbt : b ∉ t)
    (hrows : ∀ r ∈ rows, r.length = t.length + 2) :
    dropLabels [b] ⟨a :: b :: t, rows⟩
      = ⟨a :: t, rows.map (fun r => r.take 1 ++ r.drop 2)⟩ := by
  unfold dropLabels
  simp only [Sheet.mk.injEq]
  constructor
  · rw [List.filter_cons, if_pos (by simp [hab]), List.filter_cons, if_neg (by simp)]
    rw [List.filter_eq_self.mpr]
    intro x hx
    simp only [List.mem_singleton, decide_eq_true_eq]
    exact fun h => hbt (h ▸ hx)
  · apply List.map_congr_left
    intro r hr
    have hlen := hrows r hr
    match r, hlen with
    | x :: y :: rt, hlen =>
      have hrt : rt.length = t.length := by simpa using hlen
      rw [List.zip_cons_cons, List.zip_cons_cons]
      rw [List.filter_cons, if_pos (by simp [hab]), List.filter_cons, if_neg (by simp)]
      rw [List.filter_eq_self.mpr]
      · rw [List.map_cons, List.map_snd_zip t rt (le_of_eq hrt)]
        rfl
      · intro p hp
        have hpt := (List.of_mem_zip hp).1
        simp only [List.mem_singleton, decide_eq_true_eq]
        exact fun h => hbt (h ▸ hpt)

theorem dropLabels_quad (a b c e : String) (t : List String) (rows : List (List Cell))
    (hab : a ≠ b) (hac : a ≠ c) (hae : a ≠ e)
    (hbt : b ∉ t) (hct : c ∉ t) (het : e ∉ t)
    (hrows : ∀ r ∈ rows, r.length = t.length + 4) :
    dropLabels [b, c, e] ⟨a :: b :: c :: e :: t, rows⟩
      = ⟨a :: t, rows.map (fun r => r.take 1 ++ r.drop 4)⟩ := by
  unfold dropLabels
  simp only [Sheet.mk.injEq]
  constructor
  · rw [List.filter_cons, if_pos (by simp [hab, hac, hae]),
      List.filter_cons, if_neg (by simp),
      List.filter_cons, if_neg (by simp),
      List.filter_cons, if_neg (by simp)]
    rw [List.filter_eq_self.mpr]
    intro x hx
    simp only [List.mem_cons, List.not_mem_nil, or_false, decide_eq_true_eq]
    rintro (rfl | rfl | rfl)
    · exact hbt hx
    · exact hct hx
    · exact het hx
  · apply List.map_congr_left
    intro r hr
    have hlen := hrows r hr
    match r, hlen with
    | x :: y :: z :: w :: rt, hlen =>
      have hrt : rt.length = t.length := by simpa using hlen
      rw [List.zip_cons_cons, List.zip_cons_cons, List.zip_cons_cons, List.zip_cons_cons]
      rw [List.filter_cons, if_pos (by simp [hab, hac, hae]),
        List.filter_cons, if_neg (by simp),
        List.filter_cons, if_neg (by simp),
        List.filter_cons, if_neg (by simp)]
      rw [List.filter_eq_self.mpr]
      · rw [List.map_cons, List.map_snd_zip t rt (le_of_eq hrt)]
        rfl
      · intro p hp
        have hpt := (List.of_mem_zip hp).1
        simp only [List.mem_cons, List.not_mem_nil, or_false, decide_eq_true_eq]
        rintro (h | h | h)
        · exact hbt (h ▸ hpt)
        · exact hct (h ▸ hpt)
        · exact het (h ▸ hpt)

theorem stripSheet_summary (f : String) (s : Sheet)
    (hf : pyCharAt f 6 ≠ some '_') (hnd : s.header.Nodup) (hlen : 2 ≤ s.header.length)
    (hrows : ∀ r ∈ s.rows, r.length = s.header.length) :
    stripSheet f s = .ok ⟨s.header.take 1 ++ s.header.drop 2,
      s.rows.map (fun r => r.take 1 ++ r.drop 2)⟩ := by
  obtain ⟨hdr, rows⟩ := s
  match hdr, hnd, hlen, hrows with
  | a :: b :: t, hnd, _, hrows =>
    have hab : a ≠ b := by
      have := (List.nodup_cons.mp hnd).1
      exact fun h => this (h ▸ List.mem_cons_self b t)
    have hbt : b ∉ t := (List.nodup_cons.mp (List.nodup_cons.mp hnd).2).1
    unfold stripSheet
    rw [if_pos hf, if_neg (by simp)]
    have : (a :: b :: t : List String).getD 1 "" = b := rfl
    rw [this]
    rw [dropLabels_pair a b t rows hab hbt (by simpa using hrows)]
    rfl

theorem stripSheet_lsoa (f : String) (s : Sheet)
    (hf : pyCharAt f 6 = some '_') (hnd : s.header.Nodup) (hlen : 4 ≤ s.header.length)
    (hrows : ∀ r ∈ s.rows, r.length = s.header.length) :
    stripSheet f s = .ok ⟨s.header.take 1 ++ s.header.drop 4,
      s.rows.map (fun r => r.take 1 ++ r.drop 4)⟩ := by
  obtain ⟨hdr, rows⟩ := s
  match hdr, hnd, hlen, hrows with
  | a :: b :: c :: e :: t, hnd, _, hrows =>
    have h1 := List.nodup_cons.mp hnd
    have h2 := List.nodup_cons.mp h1.2
    have h3 := List.nodup_cons.mp h2.2
    have h4 := List.nodup_cons.mp h3.2
    have hab : a ≠ b := by intro h; apply h1.1; rw [h]; simp
    have hac : a ≠ c := by intro h; apply h1.1; rw [h]; simp
    have hae : a ≠ e := by intro h; apply h1.1; rw [h]; simp
    have hbt : b ∉ t := by intro h; apply h2.1; simp [h]
    have hct : c ∉ t := by intro h; apply h3.1; simp [h]
    have het : e ∉ t := h4.1
    unfold stripSheet
    rw [if_neg (not_not_intro hf)]
    have : ((a :: b :: c :: e :: t : List String).drop 1).take 3 = [b, c, e] := rfl
    rw [this]
    rw [dropLabels_quad a b c e t rows hab hac hae hbt hct het (by simpa using hrows)]
    rfl

/-- C1: the column stripper classifies each filename by its character at
index 6 and keeps every key: a non-underscore file loses exactly the column
at position 1 of every sheet, an underscore file loses exactly the columns at
positions 1, 2 and 3 of every sheet.  (Stated for well-formed collections:
filenames long enough for the index-6 check, headers duplicate-free and at
least 4 columns wide, rows as long as the header.) -/
theorem remove_columns_classifies_and_strips (d : List (String × List Sheet))
    (hlen : ∀ kv ∈ d, 7 ≤ kv.1.length)
    (hwf : ∀ kv ∈ d, ∀ s ∈ kv.2, s.header.Nodup ∧ 4 ≤ s.header.length ∧
        ∀ r ∈ s.rows, r.length = s.header.length) :
    remove_columns d = .ok (d.map (fun kv => (kv.1, kv.2.map (fun s =>
      if pyCharAt kv.1 6 ≠ some '_' then
        (⟨s.header.take 1 ++ s.header.drop 2,
          s.rows.map (fun r => r.take 1 ++ r.drop 2)⟩ : Sheet)
      else
        ⟨s.header.take 1 ++ s.header.drop 4,
          s.rows.map (fun r => r.take 1 ++ r.drop 4)⟩)))) ∧
    (d.map (fun kv => (kv.1, kv.2.map (fun s =>
      if pyCharAt kv.1 6 ≠ some '_' then
        (⟨s.header.take 1 ++ s.header.drop 2,
          s.rows.map (fun r => r.take 1 ++ r.drop 2)⟩ : Sheet)
      else
        ⟨s.header.take 1 ++ s.header.drop 4,
          s.rows.map (fun r => r.take 1 ++ r.drop 4)⟩)))).map Prod.fst
      = d.map Prod.fst := by
  constructor
  · unfold remove_columns
    rw [if_neg (by
      rw [Bool.not_eq_true, List.any_eq_false]
      intro kv hkv
      have := hlen kv hkv
      simp only [decide_eq_true_eq]
      omega)]
    apply mapE_congr_ok
    intro kv hkv
    rw [mapE_congr_ok (g := fun s =>
      if pyCharAt kv.1 6 ≠ some '_' then
        (⟨s.header.take 1 ++ s.header.drop 2,
          s.rows.map (fun r => r.take 1 ++ r.drop 2)⟩ : Sheet)
      else
        ⟨s.header.take 1 ++ s.header.drop 4,
          s.rows.map (fun r => r.take 1 ++ r.drop 4)⟩)]
    · rfl
    · intro s hs
      obtain ⟨hnd, h4, hrows⟩ := hwf kv hkv s hs
      by_cases hchar : pyCharAt kv.1 6 = some '_'
      · rw [if_neg (not_not_intro hchar)]
        exact stripSheet_lsoa kv.1 s hchar hnd h4 hrows
      · rw [if_pos hchar]
        exact stripSheet_summary kv.1 s hchar hnd (by omega) hrows
  · rw [List.map_map]
    rfl

theorem remove_columns_classifies_and_strips_witness :
    (∀ kv ∈ c1Workbook, 7 ≤ kv.1.length) ∧
    remove_columns c1Workbook = .ok
      [("SUMMARY.xlsx", [⟨["a", "c", "d"], [[some "1", some "3", some "4"]]⟩]),
       ("LSOA09_IMD.xlsx", [⟨["a"], [[some "1"]]⟩])] :=
  ⟨by decide,
   ((remove_columns_classifies_and_strips c1Workbook (by decide) (by decide)).1).trans
     (by decide)⟩

/-! ## C3 -/

/-- C3 counterexample: the character of `E01000001_IMD.xlsx` at index 6 is
`'0'`, not an underscore, so the file is summary-resolution and the stripper
drops only `LSOA name`, leaving `[LSOA code, Score]`; the reshaper's
`id_vars` then cover both remaining columns and are popped before raveling,
so each sheet melts to an empty EAV table — no `(code, name, "Score", value)`
row (nor any row) is produced. -/
theorem imd_e01000001_scenario_counterexample :
    pyCharAt "E01000001_IMD.xlsx" 6 = some '0' ∧
    Except.map convert_to_eav_format (remove_columns c3Workbook)
      = .ok [("E01000001_IMD.xlsx",
          [⟨["LSOA code", "Score", "attribute", "value"], []⟩,
           ⟨["LSOA code", "Score", "attribute", "value"], []⟩])] ∧
    ([] : List (List Cell))
      ≠ [[some "E01000001", some "Name One", some "Score", some "5"]] :=
  ⟨by decide, by decide, by decide⟩

/-- C3 amended: for a workbook named `E01000001_IMD.xlsx` (character at
index 6 is `'0'`, not an underscore, so the file is summary-resolution)
whose sheets have columns `[LSOA code, LSOA name, Score]`, the stripper
drops only the column at position 1 (`LSOA name`), and the reshaper then
yields for each sheet an empty EAV table with header
`[LSOA code, Score, attribute, value]` and no rows at all: melt's `id_vars`
(the two remaining columns) are popped out of the frame before raveling,
leaving no value column to melt. -/
theorem imd_e01000001_scenario_amended (rows1 rows2 : List (List Cell))
    (h1 : ∀ r ∈ rows1, r.length = 3) (h2 : ∀ r ∈ rows2, r.length = 3) :
    Except.map convert_to_eav_format (remove_columns
      [("E01000001_IMD.xlsx", [⟨c3Header, rows1⟩, ⟨c3Header, rows2⟩])])
    = .ok [("E01000001_IMD.xlsx",
        [⟨["LSOA code", "Score", "attribute", "value"], []⟩,
         ⟨["LSOA code", "Score", "attribute", "value"], []⟩])] := by
  have hs1 := stripSheet_summary "E01000001_IMD.xlsx" ⟨c3Header, rows1⟩
    (by decide) (by decide : c3Header.Nodup) (by decide : 2 ≤ c3Header.length)
    (by intro r hr; exact h1 r hr)
  have hs2 := stripSheet_summary "E01000001_IMD.xlsx" ⟨c3Header, rows2⟩
    (by decide) (by decide : c3Header.Nodup) (by decide : 2 ≤ c3Header.length)
    (by intro r hr; exact h2 r hr)
  rw [show (⟨c3Header, rows1⟩ : Sheet).header.take 1
        ++ (⟨c3Header, rows1⟩ : Sheet).header.drop 2 = ["LSOA code", "Score"]
      from rfl] at hs1
  rw [show (⟨c3Header, rows2⟩ : Sheet).header.take 1
        ++ (⟨c3Header, rows2⟩ : Sheet).header.drop 2 = ["LSOA code", "Score"]
      from rfl] at hs2
  unfold remove_columns
  rw [show ([("E01000001_IMD.xlsx",
      [(⟨c3Header, rows1⟩ : Sheet), ⟨c3Header, rows2⟩])].any
        (fun kv => kv.1.length < 7)) = false from rfl]
  rw [if_neg (by decide)]
  simp only [mapE]
  rw [hs1, hs2]
  show Except.map convert_to_eav_format (.ok _) = _
  rw [show ∀ (x : List (String × List Sheet)),
      Except.map convert_to_eav_format (Except.ok x)
        = .ok (convert_to_eav_format x) from fun x => rfl]
  unfold convert_to_eav_format
  simp only [List.map_cons, List.map_nil]
  rfl

theorem imd_e01000001_scenario_amended_witness :
    (∀ r ∈ [[some "E01000001", some "Name One", some "5"]], r.length = 3) ∧
    Except.map convert_to_eav_format (remove_columns
      [("E01000001_IMD.xlsx",
        [⟨c3Header, [[some "E01000001", some "Name One", some "5"]]⟩,
         ⟨c3Header, [[some "E01000002", some "Name Two", some "7"]]⟩])])
    = .ok [("E01000001_IMD.xlsx",
        [⟨["LSOA code", "Score", "attribute", "value"], []⟩,
         ⟨["LSOA code", "Score", "attribute", "value"], []⟩])] :=
  ⟨by decide,
   (imd_e01000001_scenario_amended
      [[some "E01000001", some "Name One", some "5"]]
      [[some "E01000002", some "Name Two", some "7"]]
      (by decide) (by decide)).trans (by decide)⟩

/-! ## C2 -/

theorem sum_map_const_nat (l : List α) (c : Nat) :
    (l.map (fun _ => c)).sum = l.length * c := by
  induction l with
  | nil => simp
  | cons a l ih => simp [ih, Nat.succ_mul, Nat.add_comm]

theorem melt_rows_length (s : Sheet) :
    (melt s).rows.length = s.rows.length * (s.header.length - 2) := by
  show ((List.range' 2 (s.header.length - 2)).flatMap _).length = _
  rw [List.length_flatMap]
  rw [show List.map _ (List.range' 2 (s.header.length - 2))
      = List.map (fun _ => s.rows.length) (List.range' 2 (s.header.length - 2)) from
    List.map_congr_left (fun j _ => by simp)]
  rw [sum_map_const_nat, List.length_range', Nat.mul_comm]

theorem melt_rows_mem (s : Sheet) (row : List Cell) (h : row ∈ (melt s).rows) :
    ∃ r ∈ s.rows, ∃ j, 2 ≤ j ∧ j < s.header.length ∧
      row = r.take 2 ++ [some (s.header.getD j ""), r.getD j none] := by
  have h' : row ∈ (List.range' 2 (s.header.length - 2)).flatMap (fun j =>
      s.rows.map (fun r => r.take 2 ++ [some (s.header.getD j ""), r.getD j none])) := h
  rw [List.mem_flatMap] at h'
  obtain ⟨j, hj, hrow⟩ := h'
  rw [List.mem_map] at hrow
  obtain ⟨r, hr, hrw⟩ := hrow
  rw [List.mem_range'] at hj
  obtain ⟨i, hi, rfl⟩ := hj
  exact ⟨r, hr, 2 + 1 * i, by omega, by omega, hrw.symm⟩

/-- C2 counterexample: on a one-row three-column sheet the reshaper emits a
single output row with attribute `c` (the column at position 2), not the
claimed one-row-per-column-from-position-1: `pd.melt` pops its `id_vars`
(columns 0 and 1) out of the frame before raveling, so the overlapping
column at position 1 is never melted and the output has
`rows * (cols - 2) = 1` row, not `rows * (cols - 1) = 2`. -/
theorem convert_to_eav_position_counterexample :
    convert_to_eav_format
      [("f", [⟨["a", "b", "c"], [[some "x", some "y", some "z"]]⟩])]
      = [("f", [⟨["a", "b", "attribute", "value"],
          [[some "x", some "y", some "c", some "z"]]⟩])] ∧
    ¬ ((⟨["a", "b", "attribute", "value"],
          [[some "x", some "y", some "c", some "z"]]⟩ : Sheet).rows.length
        = 1 * ((["a", "b", "c"] : List String).length - 1)) :=
  ⟨by decide, by decide⟩

/-- C2 amended: the EAV reshaper keeps each entry's key, turns each sheet's
header into its first two columns followed by `attribute` and `value`, emits
exactly `(original row count) * (number of columns from position 2 onward)`
rows — the value-column slice starts at position 1 but melt pops the
`id_vars` out before raveling, so the overlapping second identity column is
not melted — and every output row is the untouched first-two-cell identity
prefix of some original row followed by an original column header (position
2 onward) as the attribute and that row's cell in that column as the value. -/
theorem convert_to_eav_shape_amended (d : List (String × List Sheet)) (f : String)
    (ss : List Sheet) (hmem : (f, ss) ∈ d) :
    ∃ ss', (f, ss') ∈ convert_to_eav_format d ∧ ss'.length = ss.length ∧
      ∀ i s, ss.get? i = some s → ∃ s', ss'.get? i = some s' ∧
        s'.header = s.header.take 2 ++ ["attribute", "value"] ∧
        s'.rows.length = s.rows.length * (s.header.length - 2) ∧
        ∀ row ∈ s'.rows, ∃ r ∈ s.rows, ∃ j, 2 ≤ j ∧ j < s.header.length ∧
          row = r.take 2 ++ [some (s.header.getD j ""), r.getD j none] := by
  refine ⟨ss.map melt, ?_, by simp, ?_⟩
  · exact List.mem_map_of_mem (fun kv => (kv.1, kv.2.map melt)) hmem
  · intro i s hi
    refine ⟨melt s, ?_, rfl, melt_rows_length s, fun row hrow => melt_rows_mem s row hrow⟩
    rw [List.get?_eq_getElem?, List.getElem?_map]
    rw [List.get?_eq_getElem?] at hi
    rw [hi]
    rfl

theorem convert_to_eav_shape_amended_witness :
    (("E01000001_IMD.xlsx",
      [(⟨c3Header, [[some "E01000001", some "Name One", some "5"]]⟩ : Sheet),
       ⟨c3Header, [[some "E01000002", some "Name Two", some "7"]]⟩]) ∈ c3Workbook) ∧
    ∃ ss', ("E01000001_IMD.xlsx", ss') ∈ convert_to_eav_format c3Workbook ∧
      ss'.length = 2 :=
  ⟨by decide, by
    obtain ⟨ss', hm, hlen, _⟩ := convert_to_eav_shape_amended c3Workbook
      "E01000001_IMD.xlsx"
      [⟨c3Header, [[some "E01000001", some "Name One", some "5"]]⟩,
       ⟨c3Header, [[some "E01000002", some "Name Two", some "7"]]⟩] (by decide)
    exact ⟨ss', hm, hlen⟩⟩

/-! ## C4 -/

theorem uniqueFirstAux_not_mem_seen :
    ∀ (l seen : List Cell) (x : Cell), x ∈ uniqueFirstAux seen l → x ∉ seen := by
  intro l
  induction l with
  | nil => intro seen x hx; simp [uniqueFirstAux] at hx
  | cons a l ih =>
      intro seen x hx
      by_cases hc : a ∈ seen
      · rw [show uniqueFirstAux seen (a :: l) = uniqueFirstAux seen l from by
            simp [uniqueFirstAux, hc]] at hx
        exact ih seen x hx
      · rw [show uniqueFirstAux seen (a :: l) = a :: uniqueFirstAux (a :: seen) l from by
            simp [uniqueFirstAux, hc]] at hx
        rcases List.mem_cons.mp hx with rfl | hx'
        · exact hc
        · exact fun hmem => (ih (a :: seen) x hx') (List.mem_cons_of_mem a hmem)

theorem uniqueFirstAux_nodup : ∀ (l seen : List Cell), (uniqueFirstAux seen l).Nodup := by
  intro l
  induction l with
  | nil => intro seen; simp [uniqueFirstAux]
  | cons a l ih =>
      intro seen
      by_cases hc : a ∈ seen
      · rw [show uniqueFirstAux seen (a :: l) = uniqueFirstAux seen l from by
            simp [uniqueFirstAux, hc]]
        exact ih seen
      · rw [show uniqueFirstAux seen (a :: l) = a :: uniqueFirstAux (a :: seen) l from by
            simp [uniqueFirstAux, hc]]
        rw [List.nodup_cons]
        exact ⟨fun hmem =>
          (uniqueFirstAux_not_mem_seen l (a :: seen) a hmem) (List.mem_cons_self a seen),
          ih (a :: seen)⟩

theorem uniqueFirst_nodup (l : List Cell) : (uniqueFirst l).Nodup :=
  uniqueFirstAux_nodup l []

theorem mkBridge_ok (t : Sheet) (ij : Nat × Nat) (b : Sheet)
    (h : mkBridge t ij = .ok b) :
    b.header = ["code", "name"] ∧
    b.rows.map (fun r => r.getD 0 none) = uniqueFirst (getCol t ij.1) ∧
    b.rows.map (fun r => r.getD 1 none) = uniqueFirst (getCol t ij.2) ∧
    b.rows.length
      = max (uniqueFirst (getCol t ij.1)).length (uniqueFirst (getCol t ij.2)).length := by
  unfold mkBridge at h
  split at h
  · dsimp only at h
    split at h
    case isTrue hlen =>
      cases h
      dsimp only
      refine ⟨rfl, ?_, ?_, ?_⟩
      · rw [List.map_map]
        exact List.map_fst_zip _ _ (le_of_eq hlen)
      · rw [List.map_map]
        exact List.map_snd_zip _ _ (le_of_eq hlen.symm)
      · simp [List.length_zip, hlen]
    case isFalse => exact Except.noConfusion h
  · exact Except.noConfusion h

/-- C4: every bridge table the builder produces has columns named `code` and
`name`, the code column is the independent first-occurrence dedup of the
configured source column and likewise the name column, both are
duplicate-free, and the row count equals the maximum of the two dedup
lengths (production forces the two lengths to agree, so their maximum is
that common length). -/
theorem create_bridge_tables_dedup (t : Sheet) (bs : List Sheet)
    (h : create_bridge_tables t = .ok bs) :
    bs.length = 4 ∧
    ∀ k ij b, bridgePairs.get? k = some ij → bs.get? k = some b →
      b.header = ["code", "name"] ∧
      b.rows.map (fun r => r.getD 0 none) = uniqueFirst (getCol t ij.1) ∧
      b.rows.map (fun r => r.getD 1 none) = uniqueFirst (getCol t ij.2) ∧
      (b.rows.map (fun r => r.getD 0 none)).Nodup ∧
      (b.rows.map (fun r => r.getD 1 none)).Nodup ∧
      b.rows.length
        = max (uniqueFirst (getCol t ij.1)).length (uniqueFirst (getCol t ij.2)).length := by
  refine ⟨by rw [mapE_ok_length h]; rfl, ?_⟩
  intro k ij b hij hb
  obtain ⟨h1, h2, h3, h4⟩ := mkBridge_ok t ij b (mapE_ok_get h k ij b hij hb)
  refine ⟨h1, h2, h3, ?_, ?_, h4⟩
  · rw [h2]; exact uniqueFirst_nodup _
  · rw [h3]; exact uniqueFirst_nodup _

theorem create_bridge_tables_dedup_witness :
    create_bridge_tables c4Master = .ok
      [⟨["code", "name"], [[some "v2", some "v3"]]⟩,
       ⟨["code", "name"], [[some "v6", some "v7"]]⟩,
       ⟨["code", "name"], [[some "v10", some "v11"]]⟩,
       ⟨["code", "name"], [[some "v14", some "v16"]]⟩] ∧
    ([(⟨["code", "name"], [[some "v2", some "v3"]]⟩ : Sheet),
      ⟨["code", "name"], [[some "v6", some "v7"]]⟩,
      ⟨["code", "name"], [[some "v10", some "v11"]]⟩,
      ⟨["code", "name"], [[some "v14", some "v16"]]⟩]).length = 4 :=
  ⟨by decide, (create_bridge_tables_dedup c4Master _ (by decide)).1⟩

/-! ## C5 -/

theorem except_bind_ok {α β : Type _} (a : α) (f : α → Except String β) :
    (Except.ok a >>= f : Except String β) = f a := rfl

theorem length_filter_eq_le_one {α β : Type _} [DecidableEq β]
    (L : List α) (f : α → β) (v : β) (h : (L.map f).Nodup) :
    (L.filter (fun x => decide (f x = v))).length ≤ 1 := by
  induction L with
  | nil => simp
  | cons a l ih =>
      rw [List.map_cons, List.nodup_cons] at h
      rw [List.filter_cons]
      by_cases hfa : f a = v
      · rw [if_pos (by simpa using hfa)]
        rw [show l.filter (fun x => decide (f x = v)) = [] from by
          rw [List.filter_eq_nil_iff]
          intro x hx
          simp only [decide_eq_true_eq]
          intro hfx
          exact h.1 ((hfx.trans hfa.symm) ▸ List.mem_map_of_mem f hx)]
        simp
      · rw [if_neg (by simpa using hfa)]
        exact ih h.2

theorem flatMap_length_eq_of_len_one {α β : Type _} (l : List α) (f : α → List β)
    (h : ∀ a ∈ l, (f a).length = 1) : (l.flatMap f).length = l.length := by
  rw [List.length_flatMap]
  rw [show List.map (List.length ∘ f) l = List.map (fun _ => 1) l from
    List.map_congr_left (fun a ha => by simp [h a ha])]
  rw [sum_map_const_nat, Nat.mul_one]

theorem mergeRow_length_one (r : Sheet) (li ri : Nat) (lr : List Cell)
    (hnd : (r.rows.map (fun rr => rr.getD ri none)).Nodup) :
    (mergeRow r li ri lr).length = 1 := by
  unfold mergeRow
  by_cases he :
      (r.rows.filter (fun rr => decide (rr.getD ri none = lr.getD li none))).isEmpty
  · rw [if_pos he]; rfl
  · rw [if_neg he, List.length_map]
    have h1 : (r.rows.filter
        (fun rr => decide (rr.getD ri none = lr.getD li none))).length ≤ 1 :=
      length_filter_eq_le_one r.rows (fun rr => rr.getD ri none) (lr.getD li none) hnd
    have h2 : r.rows.filter (fun rr => decide (rr.getD ri none = lr.getD li none)) ≠ [] :=
      fun hnil => he (by rw [hnil]; rfl)
    have h3 := List.length_pos.mpr h2
    omega

theorem mergeRow_unmatched (r : Sheet) (li ri : Nat) (lr : List Cell)
    (h : lr.getD li none ∉ r.rows.map (fun rr => rr.getD ri none)) :
    mergeRow r li ri lr = [lr ++ List.replicate r.header.length none] := by
  unfold mergeRow
  rw [show r.rows.filter (fun rr => decide (rr.getD ri none = lr.getD li none)) = []
      from by
    rw [List.filter_eq_nil_iff]
    intro rr hrr
    simp only [decide_eq_true_eq]
    intro heq
    exact h (heq ▸ List.mem_map_of_mem (fun rr => rr.getD ri none) hrr)]
  rfl

theorem getD_append_left (l1 l2 : List Cell) (i : Nat) (h : i < l1.length) :
    (l1 ++ l2).getD i none = l1.getD i none := by
  rw [List.getD_eq_getElem?_getD, List.getD_eq_getElem?_getD, List.getElem?_append,
    if_pos h]

/-- C5 counterexample: with the four named lookup files present but the
DistrictUT table carrying its join key `A` twice, the master has 2 rows while
the District table has 1 — a left join with duplicate right-side keys does
not preserve the left row count. -/
theorem create_master_rowcount_counterexample :
    Except.map (fun m => m.rows.length) (create_master c5Lookups) = .ok 2 ∧
    Except.map (fun t => t.rows.length)
      (getReq c5Lookups "LSOA_District_lookup.csv") = .ok 1 :=
  ⟨by decide, by decide⟩

/-- C5 amended: the master builder performs the three left-joins in the fixed
source order on the named geography-code columns, and provided each
right-side table's `LSOA11CD` join-key column is duplicate-free, the master's
row count equals the District lookup's row count regardless of match success,
and a District row whose key matches nothing in any right-side table appears
in the master padded with nulls across all joined-in columns. -/
theorem create_master_left_join_amended
    (d : List (String × Sheet)) (dist ut lep ccg : Sheet)
    (hdist : getReq d "LSOA_District_lookup.csv" = .ok dist)
    (hut : getReq d "LSOA_DistrictUT_lookup.csv" = .ok ut)
    (hlep : getReq d "LSOA_LEP_lookup.csv" = .ok lep)
    (hccg : getReq d "LSOA_CCG_lookup.csv" = .ok ccg)
    (li ui vi wi : Nat)
    (hli : dist.header.findIdx? (fun h => h == "LSOA code (2011)") = some li)
    (hui : ut.header.findIdx? (fun h => h == "LSOA11CD") = some ui)
    (hvi : lep.header.findIdx? (fun h => h == "LSOA11CD") = some vi)
    (hwi : ccg.header.findIdx? (fun h => h == "LSOA11CD") = some wi)
    (hndut : (ut.rows.map (fun rr => rr.getD ui none)).Nodup)
    (hndlep : (lep.rows.map (fun rr => rr.getD vi none)).Nodup)
    (hndccg : (ccg.rows.map (fun rr => rr.getD wi none)).Nodup)
    (halign : ∀ r ∈ dist.rows, r.length = dist.header.length) :
    ∃ m, create_master d = .ok m ∧ m.rows.length = dist.rows.length ∧
      ∀ lr ∈ dist.rows,
        lr.getD li none ∉ ut.rows.map (fun rr => rr.getD ui none) →
        lr.getD li none ∉ lep.rows.map (fun rr => rr.getD vi none) →
        lr.getD li none ∉ ccg.rows.map (fun rr => rr.getD wi none) →
        lr ++ List.replicate
          (ut.header.length + lep.header.length + ccg.header.length) none ∈ m.rows := by
  have hliBound : li < dist.header.length :=
    (List.findIdx?_eq_some_iff_findIdx_eq.mp hli).1
  have hli1 : (dist.header ++ ut.header).findIdx?
      (fun h => h == "LSOA code (2011)") = some li := by
    rw [List.findIdx?_append, hli]; rfl
  have hli2 : ((dist.header ++ ut.header) ++ lep.header).findIdx?
      (fun h => h == "LSOA code (2011)") = some li := by
    rw [List.findIdx?_append, hli1]; rfl
  have hj1 : leftMerge dist ut "LSOA code (2011)" "LSOA11CD"
      = .ok ⟨dist.header ++ ut.header, dist.rows.flatMap (mergeRow ut li ui)⟩ := by
    unfold leftMerge
    rw [hli, hui]
  have hj2 : leftMerge ⟨dist.header ++ ut.header, dist.rows.flatMap (mergeRow ut li ui)⟩
      lep "LSOA code (2011)" "LSOA11CD"
      = .ok ⟨(dist.header ++ ut.header) ++ lep.header,
          (dist.rows.flatMap (mergeRow ut li ui)).flatMap (mergeRow lep li vi)⟩ := by
    unfold leftMerge
    rw [show (Sheet.mk (dist.header ++ ut.header)
        (dist.rows.flatMap (mergeRow ut li ui))).header.findIdx?
        (fun h => h == "LSOA code (2011)") = some li from hli1, hvi]
  have hj3 : leftMerge ⟨(dist.header ++ ut.header) ++ lep.header,
        (dist.rows.flatMap (mergeRow ut li ui)).flatMap (mergeRow lep li vi)⟩
      ccg "LSOA code (2011)" "LSOA11CD"
      = .ok ⟨((dist.header ++ ut.header) ++ lep.header) ++ ccg.header,
          ((dist.rows.flatMap (mergeRow ut li ui)).flatMap
            (mergeRow lep li vi)).flatMap (mergeRow ccg li wi)⟩ := by
    unfold leftMerge
    rw [show (Sheet.mk ((dist.header ++ ut.header) ++ lep.header)
        ((dist.rows.flatMap (mergeRow ut li ui)).flatMap (mergeRow lep li vi))).header.findIdx?
        (fun h => h == "LSOA code (2011)") = some li from hli2, hwi]
  refine ⟨⟨((dist.header ++ ut.header) ++ lep.header) ++ ccg.header,
    ((dist.rows.flatMap (mergeRow ut li ui)).flatMap
      (mergeRow lep li vi)).flatMap (mergeRow ccg li wi)⟩, ?_, ?_, ?_⟩
  · unfold create_master
    rw [hdist, except_bind_ok, hut, except_bind_ok, hj1, except_bind_ok,
      hlep, except_bind_ok, hj2, except_bind_ok, hccg, except_bind_ok, hj3]
  · show (((dist.rows.flatMap (mergeRow ut li ui)).flatMap
        (mergeRow lep li vi)).flatMap (mergeRow ccg li wi)).length = dist.rows.length
    rw [flatMap_length_eq_of_len_one _ _ (fun a _ => mergeRow_length_one ccg li wi a hndccg),
      flatMap_length_eq_of_len_one _ _ (fun a _ => mergeRow_length_one lep li vi a hndlep),
      flatMap_length_eq_of_len_one _ _ (fun a _ => mergeRow_length_one ut li ui a hndut)]
  · intro lr hlr hn1 hn2 hn3
    have hlrlen : lr.length = dist.header.length := halign lr hlr
    have hkey1 : (lr ++ List.replicate ut.header.length none).getD li none
        = lr.getD li none := getD_append_left _ _ li (by omega)
    have hkey2 : ((lr ++ List.replicate ut.header.length none)
          ++ List.replicate lep.header.length none).getD li none
        = lr.getD li none := by
      rw [getD_append_left _ _ li (by rw [List.length_append]; omega), hkey1]
    have hm1 : lr ++ List.replicate ut.header.length none
        ∈ dist.rows.flatMap (mergeRow ut li ui) :=
      List.mem_flatMap.mpr ⟨lr, hlr, by
        rw [mergeRow_unmatched ut li ui lr hn1]
        exact List.mem_singleton.mpr rfl⟩
    have hm2 : (lr ++ List.replicate ut.header.length none)
          ++ List.replicate lep.header.length none
        ∈ (dist.rows.flatMap (mergeRow ut li ui)).flatMap (mergeRow lep li vi) :=
      List.mem_flatMap.mpr ⟨lr ++ List.replicate ut.header.length none, hm1, by
        rw [mergeRow_unmatched lep li vi _ (by rw [hkey1]; exact hn2)]
        exact List.mem_singleton.mpr rfl⟩
    have hm3 : ((lr ++ List.replicate ut.header.length none)
          ++ List.replicate lep.header.length none)
          ++ List.replicate ccg.header.length none
        ∈ ((dist.rows.flatMap (mergeRow ut li ui)).flatMap
            (mergeRow lep li vi)).flatMap (mergeRow ccg li wi) :=
      List.mem_flatMap.mpr ⟨(lr ++ List.replicate ut.header.length none)
          ++ List.replicate lep.header.length none, hm2, by
        rw [mergeRow_unmatched ccg li wi _ (by rw [hkey2]; exact hn3)]
        exact List.mem_singleton.mpr rfl⟩
    have hshape : ((lr ++ List.replicate ut.header.length none)
          ++ List.replicate lep.header.length none)
          ++ List.replicate ccg.header.length none
        = lr ++ List.replicate
            (ut.header.length + lep.header.length + ccg.header.length) none := by
      rw [List.append_assoc, List.append_assoc, ← List.replicate_add,
        ← List.replicate_add, ← Nat.add_assoc]
    rw [← hshape]
    exact hm3

theorem create_master_left_join_amended_witness :
    ((⟨["LSOA11CD", "utname"], [[some "A", some "UA"]]⟩ : Sheet).rows.map
      (fun rr => rr.getD 0 none)).Nodup ∧
    ∃ m, create_master c5GoodLookups = .ok m ∧ m.rows.length = 2 := by
  refine ⟨by decide, ?_⟩
  obtain ⟨m, h1, h2, _⟩ := create_master_left_join_amended c5GoodLookups
    ⟨["LSOA code (2011)", "dname"], [[some "A", some "DA"], [some "B", some "DB"]]⟩
    ⟨["LSOA11CD", "utname"], [[some "A", some "UA"]]⟩
    ⟨["LSOA11CD", "lname"], []⟩
    ⟨["LSOA11CD", "cname"], []⟩
    (by decide) (by decide) (by decide) (by decide)
    0 0 0 0
    (by decide) (by decide) (by decide) (by decide)
    (by decide) (by decide) (by decide)
    (by decide)
  exact ⟨m, h1, h2.trans rfl⟩

/-! ## C10 -/

theorem except_bind_error {α β : Type _} (e : String) (f : α → Except String β) :
    (Except.error e >>= f : Except String β) = .error e := rfl

theorem applyStrip_ok (f : String) (st st1 : List Sheet) (id : Nat)
    (h : applyStrip f st id = .ok st1) :
    ∃ s s', st.get? id = some s ∧ stripSheet f s = .ok s' ∧ st1 = st.set id s' := by
  unfold applyStrip at h
  cases hg : st.get? id with
  | none => rw [hg] at h; exact Except.noConfusion h
  | some s =>
      rw [hg] at h
      have h' : (do
          let s' ← stripSheet f s
          pure (st.set id s') : Except String (List Sheet)) = .ok st1 := h
      cases hs : stripSheet f s with
      | error e => rw [hs, except_bind_error] at h'; exact Except.noConfusion h'
      | ok s' =>
          rw [hs, except_bind_ok] at h'
          injection h' with h1
          exact ⟨s, s', rfl, hs, h1.symm⟩

theorem foldE_append {σ α : Type _} (f : σ → α → Except String σ)
    (L1 L2 : List α) (s : σ) :
    foldE f s (L1 ++ L2) = match foldE f s L1 with
      | .ok s' => foldE f s' L2
      | .error e => .error e := by
  induction L1 generalizing s with
  | nil => rfl
  | cons a L1 ih =>
      simp only [List.cons_append, foldE]
      cases f s a with
      | ok s1 => exact ih s1
      | error e => rfl

theorem foldE_inner_eq (f : String) (ids : List Nat) (st : List Sheet) :
    foldE (fun st2 id => applyStrip f st2 id) st ids
    = foldE (fun st2 p => applyStrip p.1 st2 p.2) st (ids.map (fun id => (f, id))) := by
  induction ids generalizing st with
  | nil => rfl
  | cons i ids ih =>
      simp only [List.map_cons, foldE]
      cases applyStrip f st i with
      | ok s1 => exact ih s1
      | error e => rfl

theorem foldE_nested_eq_refs (d : List (String × List Nat)) (store : List Sheet) :
    foldE (fun st kv => foldE (fun st2 id => applyStrip kv.1 st2 id) st kv.2) store d
    = foldE (fun st2 p => applyStrip p.1 st2 p.2) store (sheetRefs d) := by
  induction d generalizing store with
  | nil => rfl
  | cons kv rest ih =>
      rw [show sheetRefs (kv :: rest)
          = kv.2.map (fun id => (kv.1, id)) ++ sheetRefs rest from rfl,
        foldE_append, ← foldE_inner_eq kv.1 kv.2 store]
      simp only [foldE]
      cases foldE (fun st2 id => applyStrip kv.1 st2 id) store kv.2 with
      | ok s1 => exact ih s1
      | error e => rfl

theorem foldRefs_preserve : ∀ (L : List (String × Nat)) (st st' : List Sheet),
    foldE (fun st2 p => applyStrip p.1 st2 p.2) st L = .ok st' →
    ∀ id, id ∉ L.map Prod.snd → st'.get? id = st.get? id := by
  intro L
  induction L with
  | nil =>
      intro st st' h id _
      injection h with h1
      rw [h1]
  | cons p rest ih =>
      intro st st' h id hid
      simp only [List.map_cons, List.mem_cons] at hid
      push_neg at hid
      simp only [foldE] at h
      cases ha : applyStrip p.1 st p.2 with
      | error e => rw [ha] at h; exact Except.noConfusion h
      | ok st1 =>
          rw [ha] at h
          obtain ⟨s, s', _, _, hset⟩ := applyStrip_ok p.1 st st1 p.2 ha
          rw [ih st1 st' h id hid.2, hset, List.get?_eq_getElem?, List.get?_eq_getElem?,
            List.getElem?_set_ne (Ne.symm hid.1)]

theorem foldRefs_update : ∀ (L : List (String × Nat)) (st st' : List Sheet)
    (f : String) (id : Nat),
    (L.map Prod.snd).Nodup → (f, id) ∈ L →
    foldE (fun st2 p => applyStrip p.1 st2 p.2) st L = .ok st' →
    ∃ s s', st.get? id = some s ∧ stripSheet f s = .ok s' ∧ st'.get? id = some s' := by
  intro L
  induction L with
  | nil => intro st st' f id _ hmem; simp at hmem
  | cons p rest ih =>
      intro st st' f id hnd hmem h
      simp only [List.map_cons, List.nodup_cons] at hnd
      simp only [foldE] at h
      cases ha : applyStrip p.1 st p.2 with
      | error e => rw [ha] at h; exact Except.noConfusion h
      | ok st1 =>
          rw [ha] at h
          rcases List.mem_cons.mp hmem with heq | hmem'
          · have hp : p = (f, id) := heq.symm
            subst hp
            obtain ⟨s, s', hg, hs, hset⟩ := applyStrip_ok (f, id).1 st st1 (f, id).2 ha
            refine ⟨s, s', hg, hs, ?_⟩
            have hbound : id < st.length := by
              rcases List.get?_eq_some.mp hg with ⟨hb, _⟩
              exact hb
            rw [foldRefs_preserve rest st1 st' h id hnd.1, hset,
              List.get?_eq_getElem?, List.getElem?_set_self hbound]
          · have hid_ne : p.2 ≠ id := fun hpe =>
              hnd.1 (hpe ▸ List.mem_map_of_mem Prod.snd hmem')
            obtain ⟨s0, s0', _, _, hset⟩ := applyStrip_ok p.1 st st1 p.2 ha
            obtain ⟨s, s', hg1, hs1, hres⟩ := ih st1 st' f id hnd.2 hmem' h
            have hsame : st1.get? id = st.get? id := by
              rw [hset, List.get?_eq_getElem?, List.get?_eq_getElem?,
                List.getElem?_set_ne hid_ne]
            exact ⟨s, s', hsame ▸ hg1, hs1, hres⟩

/-- C10: the column stripper mutates in place — under the heap model, the
collection returned by `remove_columns` carries exactly the same sheet
references as the input, and the shared store now holds the stripped version
of every referenced sheet, so the caller's original collection observes the
removal too. -/
theorem remove_columns_store_inplace (d : List (String × List Nat))
    (store : List Sheet) (d' : List (String × List Nat)) (store' : List Sheet)
    (hnd : ((sheetRefs d).map Prod.snd).Nodup)
    (h : remove_columns_store d store = .ok (d', store')) :
    d' = d ∧
    ∀ f ids, (f, ids) ∈ d → ∀ id ∈ ids, ∃ s s', store.get? id = some s ∧
      stripSheet f s = .ok s' ∧ store'.get? id = some s' := by
  unfold remove_columns_store at h
  split at h
  · exact Except.noConfusion h
  · rw [foldE_nested_eq_refs] at h
    cases hf : foldE (fun st2 p => applyStrip p.1 st2 p.2) store (sheetRefs d) with
    | error e => rw [hf, except_bind_error] at h; exact Except.noConfusion h
    | ok st2 =>
        rw [hf, except_bind_ok] at h
        injection h with h1
        have hd : d = d' := congrArg Prod.fst h1
        have hst : st2 = store' := congrArg Prod.snd h1
        subst hst
        refine ⟨hd.symm, ?_⟩
        intro f ids hmem id hid
        exact foldRefs_update (sheetRefs d) store st2 f id hnd
          (List.mem_flatMap.mpr ⟨(f, ids), hmem,
            List.mem_map_of_mem (fun i => (f, i)) hid⟩) hf

theorem remove_columns_store_inplace_witness :
    remove_columns_store c10Refs c10Store = .ok (c10Refs, c10StoreStripped) ∧
    ∃ s s', c10Store.get? 0 = some s ∧
      stripSheet "E01000001_IMD.xlsx" s = .ok s' ∧
      c10StoreStripped.get? 0 = some s' :=
  ⟨by decide,
   (remove_columns_store_inplace c10Refs c10Store c10Refs c10StoreStripped
      (by decide) (by decide)).2 "E01000001_IMD.xlsx" [0, 1] (by decide) 0 (by decide)⟩

